import Mathlib

/-!
Verification of the chezmoi mutation-backend core: the diff-encoding backend
(`GitDiffSystem`, src/v2/chezmoi/gitdiffsystem.go), the direct backend
(`RealSystem`, WriteFile / RunScript / WriteSymlink), and the entry model's
naming-convention decode.  Bytes are modelled as `List Nat`, Go strings used
as byte carriers likewise; machine file modes are `Nat` with explicit 32-bit
bit operations.
-/

/-- Bytes of a string literal, each character as its code point (ASCII in all
uses here), mirroring Go's `[]byte(s)` on ASCII data. -/
def strBytes (s : String) : List Nat :=
  s.toList.map Char.toNat

/-- Decimal ASCII representation of a natural number, mirroring Go's
`strconv.FormatInt(n, 10)` for non-negative `n`. -/
def decimalBytes (n : Nat) : List Nat :=
  strBytes (Nat.repr n)

/-- Boolean character-list comparison used to test whether `p` is an initial
segment of `s`. -/
def charsPfx : List Char → List Char → Bool
  | [], _ => true
  | _ :: _, [] => false
  | c :: cs, d :: ds => c == d && charsPfx cs ds

/-- Boolean test that the string `s` starts with `"text/"`, mirroring Go's
`strings.HasPrefix(s, "text/")` in `isBinary`. -/
def textPfx (s : String) : Bool :=
  charsPfx "text/".toList s.toList

/-!
Model of Go's `net/http.DetectContentType` (stdlib `sniff.go`), which
`isBinary` in gitdiffsystem.go calls.  The signature table, the
whitespace-skipping and the per-kind matching algorithms are translated from
the Go standard library source.
-/

/-- Whitespace bytes skipped by the sniffing algorithm (Go `isWS`). -/
def isWS (b : Nat) : Bool :=
  b == 9 || b == 10 || b == 12 || b == 13 || b == 32

/-- Index of the first non-whitespace byte (Go's `firstNonWS` loop); equals
the length when all bytes are whitespace. -/
def firstNonWS : List Nat → Nat
  | [] => 0
  | b :: bs => if isWS b then firstNonWS bs + 1 else 0

/-- One signature of the sniffing table (Go `sniffSig` implementations). -/
inductive SniffSig where
  | htmlSig (pat : List Nat)
  | maskedSig (mask pat : List Nat) (skipWS : Bool) (ct : String)
  | exactSig (pat : List Nat) (ct : String)
  | mp4Sig
  | textSig
deriving DecidableEq

/-- Case folding applied to a data byte when the corresponding HTML pattern
byte is an upper-case letter (Go `htmlSig.match` inner loop). -/
def foldByte (b db : Nat) : Nat :=
  if 65 ≤ b ∧ b ≤ 90 then db &&& 0xDF else db

/-- Byte-wise comparison loop of `htmlSig.match`: every pattern byte must
equal the (possibly case-folded) data byte. -/
def htmlCmp : List Nat → List Nat → Bool
  | [], _ => true
  | _ :: _, [] => false
  | b :: bs, d :: ds => foldByte b d == b && htmlCmp bs ds

/-- Comparison loop of `maskedSig.match`: each data byte masked by the mask
byte must equal the pattern byte. -/
def maskedCmp : List Nat → List Nat → List Nat → Bool
  | [], _, _ => true
  | p :: ps, m :: ms, d :: ds => (d &&& m) == p && maskedCmp ps ms ds
  | _, _, _ => false

/-- Boolean byte-list comparison testing whether `p` is an initial segment of
`d`, mirroring Go's `bytes.HasPrefix` used by `exactSig.match`. -/
def bytesPfx : List Nat → List Nat → Bool
  | [], _ => true
  | _ :: _, [] => false
  | p :: ps, d :: ds => p == d && bytesPfx ps ds

/-- Sublist `data[start : start+len]`, mirroring a Go slice expression. -/
def listSlice (data : List Nat) (start len : Nat) : List Nat :=
  (data.drop start).take len

/-- Big-endian 32-bit read of the first four bytes (Go
`binary.BigEndian.Uint32(data[:4])`). -/
def beUint32 (data : List Nat) : Nat :=
  match data with
  | b0 :: b1 :: b2 :: b3 :: _ => ((b0 * 256 + b1) * 256 + b2) * 256 + b3
  | _ => 0

/-- Scan loop of `mp4Sig.match`: from offset 8 in steps of 4 (skipping 12),
look for the bytes "mp4". -/
def mp4Scan (data : List Nat) (boxSize st : Nat) : Bool :=
  if st < boxSize then
    if st == 12 then mp4Scan data boxSize (st + 4)
    else if listSlice data st 3 == strBytes "mp4" then true
    else mp4Scan data boxSize (st + 4)
  else false
termination_by boxSize - st
decreasing_by all_goals omega

/-- Binary-byte test of `textSig.match`: a byte in these ranges makes the
content non-text. -/
def isBinaryByte (b : Nat) : Bool :=
  b ≤ 0x08 || b == 0x0B || (0x0E ≤ b && b ≤ 0x1A) || (0x1C ≤ b && b ≤ 0x1F)

/-- Scanning loop of `textSig.match` over the data after leading whitespace. -/
def textCheck : List Nat → Bool
  | [] => true
  | b :: bs => if isBinaryByte b then false else textCheck bs

/-- Match one signature against the (truncated) data, given the index of the
first non-whitespace byte; returns the content type, or `""` for no match,
exactly as the Go `sniffSig.match` methods do. -/
def SniffSig.matchSig : SniffSig → List Nat → Nat → String
  | .htmlSig pat, data, fnws =>
    let d := data.drop fnws
    if d.length < pat.length + 1 then ""
    else if htmlCmp pat d then
      if d.getD pat.length 0 == 32 || d.getD pat.length 0 == 62 then
        "text/html; charset=utf-8"
      else ""
    else ""
  | .maskedSig mask pat skipWS ct, data, fnws =>
    let d := if skipWS then data.drop fnws else data
    if pat.length != mask.length then ""
    else if d.length < pat.length then ""
    else if maskedCmp pat mask d then ct
    else ""
  | .exactSig pat ct, data, _ =>
    if bytesPfx pat data then ct else ""
  | .mp4Sig, data, _ =>
    if data.length < 12 then ""
    else if data.length < beUint32 data || beUint32 data % 4 != 0 then ""
    else if listSlice data 4 4 != strBytes "ftyp" then ""
    else if mp4Scan data (beUint32 data) 8 then "video/mp4"
    else ""
  | .textSig, data, fnws =>
    if textCheck (data.drop fnws) then "text/plain; charset=utf-8" else ""

/-- Signature table of Go's `net/http` content sniffing (`sniffSignatures` in
sniff.go), in order; `textSig` is last. -/
def sniffSignatures : List SniffSig := [
  .htmlSig (strBytes "<!DOCTYPE HTML"),
  .htmlSig (strBytes "<HTML"),
  .htmlSig (strBytes "<HEAD"),
  .htmlSig (strBytes "<SCRIPT"),
  .htmlSig (strBytes "<IFRAME"),
  .htmlSig (strBytes "<H1"),
  .htmlSig (strBytes "<DIV"),
  .htmlSig (strBytes "<FONT"),
  .htmlSig (strBytes "<TABLE"),
  .htmlSig (strBytes "<A"),
  .htmlSig (strBytes "<STYLE"),
  .htmlSig (strBytes "<TITLE"),
  .htmlSig (strBytes "<B"),
  .htmlSig (strBytes "<BODY"),
  .htmlSig (strBytes "<BR"),
  .htmlSig (strBytes "<P"),
  .htmlSig (strBytes "<!--"),
  .maskedSig [0xFF, 0xFF, 0xFF, 0xFF, 0xFF] (strBytes "<?xml") true "text/xml; charset=utf-8",
  .exactSig (strBytes "%PDF-") "application/pdf",
  .exactSig (strBytes "%!PS-Adobe-") "application/postscript",
  .maskedSig [0xFF, 0xFF, 0x00, 0x00] [0xFE, 0xFF, 0x00, 0x00] false "text/plain; charset=utf-16be",
  .maskedSig [0xFF, 0xFF, 0x00, 0x00] [0xFF, 0xFE, 0x00, 0x00] false "text/plain; charset=utf-16le",
  .maskedSig [0xFF, 0xFF, 0xFF, 0x00] [0xEF, 0xBB, 0xBF, 0x00] false "text/plain; charset=utf-8",
  .exactSig [0x00, 0x00, 0x01, 0x00] "image/x-icon",
  .exactSig [0x00, 0x00, 0x02, 0x00] "image/x-icon",
  .exactSig (strBytes "BM") "image/bmp",
  .exactSig (strBytes "GIF87a") "image/gif",
  .exactSig (strBytes "GIF89a") "image/gif",
  .maskedSig [0xFF, 0xFF, 0xFF, 0xFF, 0x00, 0x00, 0x00, 0x00, 0xFF, 0xFF, 0xFF, 0xFF, 0xFF, 0xFF]
    (strBytes "RIFF" ++ [0x00, 0x00, 0x00, 0x00] ++ strBytes "WEBPVP") false "image/webp",
  .exactSig ([0x89] ++ strBytes "PNG" ++ [0x0D, 0x0A, 0x1A, 0x0A]) "image/png",
  .exactSig [0xFF, 0xD8, 0xFF] "image/jpeg",
  .maskedSig [0xFF, 0xFF, 0xFF, 0xFF] (strBytes ".snd") false "audio/basic",
  .maskedSig [0xFF, 0xFF, 0xFF, 0xFF, 0x00, 0x00, 0x00, 0x00, 0xFF, 0xFF, 0xFF, 0xFF]
    (strBytes "FORM" ++ [0x00, 0x00, 0x00, 0x00] ++ strBytes "AIFF") false "audio/aiff",
  .maskedSig [0xFF, 0xFF, 0xFF] (strBytes "ID3") false "audio/mpeg",
  .maskedSig [0xFF, 0xFF, 0xFF, 0xFF, 0xFF] (strBytes "OggS" ++ [0x00]) false "application/ogg",
  .maskedSig [0xFF, 0xFF, 0xFF, 0xFF, 0xFF, 0xFF, 0xFF, 0xFF]
    (strBytes "MThd" ++ [0x00, 0x00, 0x00, 0x06]) false "audio/midi",
  .maskedSig [0xFF, 0xFF, 0xFF, 0xFF, 0x00, 0x00, 0x00, 0x00, 0xFF, 0xFF, 0xFF, 0xFF]
    (strBytes "RIFF" ++ [0x00, 0x00, 0x00, 0x00] ++ strBytes "AVI ") false "video/avi",
  .maskedSig [0xFF, 0xFF, 0xFF, 0xFF, 0x00, 0x00, 0x00, 0x00, 0xFF, 0xFF, 0xFF, 0xFF]
    (strBytes "RIFF" ++ [0x00, 0x00, 0x00, 0x00] ++ strBytes "WAVE") false "audio/wave",
  .mp4Sig,
  .exactSig [0x1A, 0x45, 0xDF, 0xA3] "video/webm",
  .maskedSig (List.replicate 34 0x00 ++ [0xFF, 0xFF]) (List.replicate 34 0x00 ++ strBytes "LP")
    false "application/vnd.ms-fontobject",
  .exactSig [0x00, 0x01, 0x00, 0x00] "font/ttf",
  .exactSig (strBytes "OTTO") "font/otf",
  .exactSig (strBytes "ttcf") "font/collection",
  .exactSig (strBytes "wOFF") "font/woff",
  .exactSig (strBytes "wOF2") "font/woff2",
  .exactSig [0x1F, 0x8B, 0x08] "application/x-gzip",
  .exactSig (strBytes "PK" ++ [0x03, 0x04]) "application/zip",
  .exactSig (strBytes "Rar!" ++ [0x1A, 0x07, 0x00]) "application/x-rar-compressed",
  .exactSig (strBytes "Rar!" ++ [0x1A, 0x07, 0x01, 0x00]) "application/x-rar-compressed",
  .exactSig [0x00, 0x61, 0x73, 0x6D] "application/wasm",
  .textSig]

/-- First-match scan over the signature list; falls back to
`"application/octet-stream"` when nothing matches (Go `DetectContentType`
main loop). -/
def matchSigs : List SniffSig → List Nat → Nat → String
  | [], _, _ => "application/octet-stream"
  | sig :: rest, data, fnws =>
    let ct := SniffSig.matchSig sig data fnws
    if ct == "" then matchSigs rest data fnws else ct

/-- Model of Go's `net/http.DetectContentType`: truncate to 512 bytes, skip
leading whitespace, scan the signature table. -/
def detectContentType (data : List Nat) : String :=
  let d := data.take 512
  matchSigs sniffSignatures d (firstNonWS d)

/-- Translation of `isBinary` (gitdiffsystem.go line 333): non-empty content
whose sniffed content type does not have a `"text/"` prefix. -/
def isBinary (data : List Nat) : Bool :=
  data.length != 0 && !(textPfx (detectContentType data))

/-- Helper predicate: a signature whose match on data with a leading NUL byte
can never produce a `"text/"`-prefixed content type, by shape: either its own
content type is not textual, or its first pattern byte cannot match a NUL. -/
def nulImmune : SniffSig → Bool
  | .htmlSig pat => pat.headD 0 != 0
  | .maskedSig _ pat _ ct => !textPfx ct || pat.headD 0 != 0
  | .exactSig _ ct => !textPfx ct
  | .mp4Sig => true
  | .textSig => true

theorem matchSig_html_nul (pat ds : List Nat) (h : pat.headD 0 ≠ 0) :
    SniffSig.matchSig (.htmlSig pat) (0 :: ds) 0 = "" := by
  cases pat with
  | nil => exact absurd rfl h
  | cons p ps =>
    have hcmp : htmlCmp (p :: ps) (0 :: ds) = false := by
      have hp : p ≠ 0 := by simpa using h
      simp [htmlCmp, foldByte, Nat.zero_and, Ne.symm hp]
    simp [SniffSig.matchSig, hcmp]

theorem matchSig_masked_nul (mask pat : List Nat) (sw : Bool) (ct : String)
    (ds : List Nat) (h : pat.headD 0 ≠ 0) :
    SniffSig.matchSig (.maskedSig mask pat sw ct) (0 :: ds) 0 = "" := by
  cases pat with
  | nil => exact absurd rfl h
  | cons p ps =>
    cases mask with
    | nil => cases sw <;> simp [SniffSig.matchSig]
    | cons m ms =>
      have hcmp : maskedCmp (p :: ps) (m :: ms) (0 :: ds) = false := by
        have hp : p ≠ 0 := by simpa using h
        simp [maskedCmp, Nat.zero_and, Ne.symm hp]
      cases sw <;> simp [SniffSig.matchSig, hcmp]

theorem matchSig_masked_ct (mask pat : List Nat) (sw : Bool) (ct : String)
    (data : List Nat) (fnws : Nat) (h : textPfx ct = false) :
    textPfx (SniffSig.matchSig (.maskedSig mask pat sw ct) data fnws) = false := by
  simp only [SniffSig.matchSig]
  repeat' split
  all_goals first | exact h | decide

theorem matchSig_exact_ct (pat : List Nat) (ct : String) (data : List Nat)
    (fnws : Nat) (h : textPfx ct = false) :
    textPfx (SniffSig.matchSig (.exactSig pat ct) data fnws) = false := by
  simp only [SniffSig.matchSig]
  split
  · exact h
  · decide

theorem matchSig_mp4_noText (data : List Nat) (fnws : Nat) :
    textPfx (SniffSig.matchSig .mp4Sig data fnws) = false := by
  simp only [SniffSig.matchSig]
  repeat' split
  all_goals decide

theorem matchSig_text_nul (ds : List Nat) :
    SniffSig.matchSig .textSig (0 :: ds) 0 = "" := by
  simp [SniffSig.matchSig, textCheck, isBinaryByte]

theorem nulImmune_noText (sig : SniffSig) (ds : List Nat) (h : nulImmune sig = true) :
    textPfx (SniffSig.matchSig sig (0 :: ds) 0) = false := by
  cases sig with
  | htmlSig pat =>
    rw [matchSig_html_nul pat ds (by simpa [nulImmune] using h)]
    decide
  | maskedSig mask pat sw ct =>
    rcases (by simpa [nulImmune] using h : textPfx ct = false ∨ pat.headD 0 ≠ 0) with hct | hp
    · exact matchSig_masked_ct mask pat sw ct _ _ hct
    · rw [matchSig_masked_nul mask pat sw ct ds hp]
      decide
  | exactSig pat ct =>
    exact matchSig_exact_ct pat ct _ _ (by simpa [nulImmune] using h)
  | mp4Sig => exact matchSig_mp4_noText _ _
  | textSig =>
    rw [matchSig_text_nul ds]
    decide

theorem matchSigs_noText (L : List SniffSig) (data : List Nat) (fnws : Nat)
    (h : ∀ sig ∈ L, textPfx (SniffSig.matchSig sig data fnws) = false) :
    textPfx (matchSigs L data fnws) = false := by
  induction L with
  | nil =>
    simp only [matchSigs]
    decide
  | cons sig rest ih =>
    simp only [matchSigs]
    split
    · exact ih (fun s hs => h s (List.mem_cons_of_mem _ hs))
    · exact h sig (List.mem_cons_self _ _)

theorem sniff_all_nulImmune : sniffSignatures.all nulImmune = true := by decide

theorem isBinary_nul (ds : List Nat) : isBinary (0 :: ds) = true := by
  have h512 : (0 :: ds).take 512 = 0 :: ds.take 511 := by
    have h : (512 : Nat) = 511 + 1 := rfl
    rw [h, List.take_succ_cons]
  have hf : firstNonWS (0 :: ds.take 511) = 0 := by simp [firstNonWS, isWS]
  have hm : textPfx (matchSigs sniffSignatures (0 :: ds.take 511) 0) = false := by
    apply matchSigs_noText
    intro sig hs
    apply nulImmune_noText
    exact List.all_eq_true.mp sniff_all_nulImmune sig hs
  simp only [isBinary, detectContentType, h512, hf, hm]
  simp

/-!
The git diff data model emitted by `GitDiffSystem` (gitdiffsystem.go), and the
parts of its external dependencies it uses: go-git's `plumbing` hashing,
`filemode` translation, and the `os.FileMode` bit layout.  A `plumbing.Hash`
is modelled by the byte sequence that was hashed (the SHA-1 itself is an
injective external function, so equality of hashes is equality of
preimages), with `ZeroHash` as the distinguished sentinel.
-/

/-- Model of `plumbing.Hash`: the zero sentinel, or the hash of a recorded
preimage byte sequence. -/
inductive GitHash where
  | zero
  | ofBytes (preimage : List Nat)
deriving DecidableEq

/-- Header written by go-git's `plumbing.NewHasher` before the content: the
object type name, a space, the decimal content length, and a NUL byte. -/
def objectHeader (t : String) (n : Nat) : List Nat :=
  strBytes t ++ strBytes " " ++ decimalBytes n ++ [0]

/-- Model of `plumbing.ComputeHash`: hash of header plus content. -/
def computeHash (t : String) (content : List Nat) : GitHash :=
  .ofBytes (objectHeader t content.length ++ content)

/-- Git file mode constants from go-git's `filemode` package. -/
def gitModeEmpty : Nat := 0
def gitModeRegular : Nat := 0o100644
def gitModeExecutable : Nat := 0o100755
def gitModeDir : Nat := 0o40000
def gitModeSymlink : Nat := 0o120000

/-- Bit constants of Go's `os.FileMode` (a `uint32`). -/
def osModeDir : Nat := 2 ^ 31
def osModeTemporary : Nat := 2 ^ 28
def osModeSymlink : Nat := 2 ^ 27
def osModeDevice : Nat := 2 ^ 26
def osModeNamedPipe : Nat := 2 ^ 25
def osModeSocket : Nat := 2 ^ 24
def osModeCharDevice : Nat := 2 ^ 21
def osModeIrregular : Nat := 2 ^ 19

/-- Go's `os.ModeType`: the union of all file-type bits. -/
def osModeType : Nat :=
  osModeDir ||| osModeSymlink ||| osModeNamedPipe ||| osModeSocket |||
    osModeDevice ||| osModeCharDevice ||| osModeIrregular

/-- Go's `os.ModePerm` (0o777). -/
def osModePerm : Nat := 0o777

/-- Go's `m &^ p` (AND NOT) on `uint32` file modes. -/
def andNot32 (m p : Nat) : Nat :=
  m &&& (p ^^^ (2 ^ 32 - 1))

/-- Error cases surfaced by the diff backend's operations: a failed read of
the wrapped state, or an OS file mode with no git equivalent. -/
inductive GdErr where
  | statE
  | readE
  | modeE
deriving DecidableEq

/-- Model of go-git's `filemode.NewFromOSFileMode`: regular files map to
`Regular`/`Executable` by the owner-execute bit, directories to `Dir`,
symlinks to `Symlink`; temporary or device bits (and any other type) have no
git equivalent and are errors. -/
def newFromOSFileMode (m : Nat) : Except GdErr Nat :=
  if m &&& osModeType == 0 then
    if m &&& osModeTemporary != 0 then .error .modeE
    else if m &&& osModeCharDevice != 0 then .error .modeE
    else if m &&& 0o100 != 0 then .ok gitModeExecutable
    else .ok gitModeRegular
  else if m &&& osModeDir != 0 then .ok gitModeDir
  else if m &&& osModeSymlink != 0 then .ok gitModeSymlink
  else .error .modeE

/-- Operation tag of one diff chunk (go-git `diff.Operation`). -/
inductive DiffOp where
  | equal
  | add
  | del
deriving DecidableEq

/-- Translation of `gitDiffChunk`: chunk content bytes and operation. -/
structure GitDiffChunk where
  content : List Nat
  operation : DiffOp
deriving DecidableEq

/-- Translation of `gitDiffFile`: hash, git file mode and patch path. -/
structure GitDiffFile where
  hash : GitHash
  fileMode : Nat
  path : String
deriving DecidableEq

/-- Translation of `gitDiffFilePatch`: binary flag, optional from/to file
descriptors, and content chunks. -/
structure GitDiffFilePatch where
  isBinary : Bool
  fromFile : Option GitDiffFile
  toFile : Option GitDiffFile
  chunks : List GitDiffChunk
deriving DecidableEq

/-- Translation of `gitDiffPatch`: ordered file patches plus a message. -/
structure GitDiffPatch where
  filePatches : List GitDiffFilePatch
  message : String
deriving DecidableEq

/-- Model of `strings.TrimPrefix(path, prefix)` used by
`GitDiffSystem.trimPrefix`. -/
def trimPfx (pfx p : String) : String :=
  if charsPfx pfx.toList p.toList then String.mk (p.toList.drop pfx.toList.length) else p

/-- One file known to the wrapped read-only system: its OS mode and its
content bytes. -/
structure FileEntry where
  mode : Nat
  content : List Nat
deriving DecidableEq

/-- State of the wrapped `SystemReader`: the files it can stat/read, and the
persistent bucket/key state it can get.  The `SystemReader` interface only
exposes reads, so every diff-backend operation consumes this state without
producing a new one. -/
structure ReaderState where
  files : List (String × FileEntry)
  pstate : List ((List Nat × List Nat) × List Nat)
deriving DecidableEq

/-- Stat through the wrapped reader: the OS file mode of `name`, when it
exists. -/
def ReaderState.statMode (s : ReaderState) (name : String) : Option Nat :=
  (s.files.lookup name).map FileEntry.mode

/-- ReadFile through the wrapped reader. -/
def ReaderState.readFile (s : ReaderState) (name : String) : Option (List Nat) :=
  (s.files.lookup name).map FileEntry.content

/-- Get through the wrapped persistent state. -/
def ReaderState.getState (s : ReaderState) (bucket key : List Nat) : Option (List Nat) :=
  s.pstate.lookup (bucket, key)

/-- Translation of `GitDiffSystem.getFileMode`: stat the wrapped reader and
translate the OS mode; returns the git mode and the raw stat mode. -/
def getFileMode (s : ReaderState) (name : String) : Except GdErr (Nat × Nat) :=
  match s.statMode name with
  | none => .error .statE
  | some m =>
    match newFromOSFileMode m with
    | .error e => .error e
    | .ok fm => .ok (fm, m)

/-- Translation of `GitDiffSystem.Chmod`: stat through the wrapped reader,
translate the current mode and the mode with its permission bits replaced by
`mode`, and encode a single from/to file patch with zero hashes. -/
def gitDiffChmod (s : ReaderState) (pfx name : String) (mode : Nat) :
    Except GdErr GitDiffPatch :=
  match getFileMode s name with
  | .error e => .error e
  | .ok (fromFileMode, statMode) =>
    match newFromOSFileMode (andNot32 statMode osModePerm ||| mode) with
    | .error e => .error e
    | .ok toFileMode =>
      .ok ⟨[⟨false,
             some ⟨.zero, fromFileMode, trimPfx pfx name⟩,
             some ⟨.zero, toFileMode, trimPfx pfx name⟩, []⟩], ""⟩

/-- Translation of `GitDiffSystem.Delete`: discards its arguments, nil
error, no patch. -/
def gitDiffDelete (bucket key : List Nat) : Except GdErr (List GitDiffPatch) :=
  .ok []

/-- Translation of `GitDiffSystem.Set`: discards its arguments, nil error,
no patch. -/
def gitDiffSet (bucket key value : List Nat) : Except GdErr (List GitDiffPatch) :=
  .ok []

/-- Translation of `GitDiffSystem.Mkdir`: encode a to-only patch with
directory mode and zero hash. -/
def gitDiffMkdir (pfx name : String) (perm : Nat) : Except GdErr GitDiffPatch :=
  match newFromOSFileMode (osModeDir ||| perm) with
  | .error e => .error e
  | .ok toFileMode =>
    .ok ⟨[⟨false, none, some ⟨.zero, toFileMode, trimPfx pfx name⟩, []⟩], ""⟩

/-- Translation of `GitDiffSystem.RemoveAll`: encode a from-only patch with
the stat-translated mode and zero hash. -/
def gitDiffRemoveAll (s : ReaderState) (pfx name : String) :
    Except GdErr GitDiffPatch :=
  match getFileMode s name with
  | .error e => .error e
  | .ok (fromFileMode, _) =>
    .ok ⟨[⟨false, some ⟨.zero, fromFileMode, trimPfx pfx name⟩, none, []⟩], ""⟩

/-- Translation of `GitDiffSystem.Rename`: one from/to patch sharing the
old path's mode, zero hashes. -/
def gitDiffRename (s : ReaderState) (pfx oldpath newpath : String) :
    Except GdErr GitDiffPatch :=
  match getFileMode s oldpath with
  | .error e => .error e
  | .ok (fileMode, _) =>
    .ok ⟨[⟨false,
           some ⟨.zero, fileMode, trimPfx pfx oldpath⟩,
           some ⟨.zero, fileMode, trimPfx pfx newpath⟩, []⟩], ""⟩

/-- Translation of `GitDiffSystem.RunScript`: no subprocess, no read of the
wrapped state; a single to-only executable-mode patch carrying the blob hash
of the script, a full add chunk when the script is not binary. -/
def gitDiffRunScript (pfx name : String) (data : List Nat) :
    Except GdErr GitDiffPatch :=
  .ok ⟨[⟨isBinary data, none,
         some ⟨computeHash "blob" data, gitModeExecutable, trimPfx pfx name⟩,
         if isBinary data then [] else [⟨data, .add⟩]⟩], ""⟩

/-- Translation of `GitDiffSystem.WriteFile`: stat and read the old content
through the wrapped reader, translate both modes, compute both blob hashes,
and line-diff the contents unless either side is binary.  The external
line-diff engine (`diffChunks`, backed by diffmatchpatch with a wall-clock
time budget) is a parameter `dc`. -/
def gitDiffWriteFile (dc : List Nat → List Nat → List GitDiffChunk)
    (s : ReaderState) (pfx filename : String) (data : List Nat) (perm : Nat) :
    Except GdErr GitDiffPatch :=
  match getFileMode s filename with
  | .error e => .error e
  | .ok (fromFileMode, _) =>
    match s.readFile filename with
    | none => .error .readE
    | some fromData =>
      match newFromOSFileMode perm with
      | .error e => .error e
      | .ok toFileMode =>
        .ok ⟨[⟨isBinary fromData || isBinary data,
               some ⟨computeHash "blob" fromData, fromFileMode, trimPfx pfx filename⟩,
               some ⟨computeHash "blob" data, toFileMode, trimPfx pfx filename⟩,
               if isBinary fromData || isBinary data then []
               else dc fromData data⟩], ""⟩

/-- Translation of `GitDiffSystem.WriteSymlink`: a to-only symlink-mode patch
whose content and blob hash are the link target string. -/
def gitDiffWriteSymlink (pfx oldname newname : String) :
    Except GdErr GitDiffPatch :=
  .ok ⟨[⟨false, none,
         some ⟨computeHash "blob" (strBytes oldname), gitModeSymlink, trimPfx pfx newname⟩,
         [⟨strBytes oldname, .add⟩]⟩], ""⟩

/-- One write call issued through the diff backend (the mutating subset of
the System contract). -/
inductive WriteCall where
  | chmodC (name : String) (mode : Nat)
  | deleteC (bucket key : List Nat)
  | mkdirC (name : String) (perm : Nat)
  | removeAllC (name : String)
  | renameC (oldpath newpath : String)
  | runScriptC (name : String) (data : List Nat)
  | setC (bucket key value : List Nat)
  | writeFileC (filename : String) (data : List Nat) (perm : Nat)
  | writeSymlinkC (oldname newname : String)
deriving DecidableEq

/-- Dispatch one write call against the wrapped reader, producing the emitted
patches (empty for the persistent-state no-ops) or an error.  The
`SystemReader` interface offers no mutating operation, so the call cannot
produce a successor reader state. -/
def applyWriteCall (dc : List Nat → List Nat → List GitDiffChunk)
    (pfx : String) (s : ReaderState) : WriteCall → Except GdErr (List GitDiffPatch)
  | .chmodC name mode => (gitDiffChmod s pfx name mode).map ([·])
  | .deleteC bucket key => gitDiffDelete bucket key
  | .mkdirC name perm => (gitDiffMkdir pfx name perm).map ([·])
  | .removeAllC name => (gitDiffRemoveAll s pfx name).map ([·])
  | .renameC oldpath newpath => (gitDiffRename s pfx oldpath newpath).map ([·])
  | .runScriptC name data => (gitDiffRunScript pfx name data).map ([·])
  | .setC bucket key value => gitDiffSet bucket key value
  | .writeFileC filename data perm => (gitDiffWriteFile dc s pfx filename data perm).map ([·])
  | .writeSymlinkC oldname newname => (gitDiffWriteSymlink pfx oldname newname).map ([·])

/-- Combined state of a diff-backend run: the wrapped reader, and the patches
handed to the unified encoder sink so far. -/
structure DiffRunState where
  reader : ReaderState
  encoded : List GitDiffPatch
deriving DecidableEq

/-- Execute one write call: successful calls append their patches to the
encoder sink; failing calls emit nothing. -/
def gitDiffStep (dc : List Nat → List Nat → List GitDiffChunk) (pfx : String)
    (st : DiffRunState) (c : WriteCall) : DiffRunState :=
  match applyWriteCall dc pfx st.reader c with
  | .ok ps => ⟨st.reader, st.encoded ++ ps⟩
  | .error _ => st

/-- Execute a sequence of write calls through the diff backend. -/
def runGitDiffCalls (dc : List Nat → List Nat → List GitDiffChunk) (pfx : String)
    (st : DiffRunState) (calls : List WriteCall) : DiffRunState :=
  calls.foldl (gitDiffStep dc pfx) st

/-!
Trace models of the direct backend (`RealSystem`, src/unnamed/part_000).
Each operation is modelled as the exact sequence of filesystem primitives the
Go code performs, with a failure oracle standing for the environment; the
crash-free control flow, the `defer`red cleanup steps and the
`multierr.Append` error aggregation are translated from the source.
-/

/-- Primitive steps of `WriteFile` in the order the code can perform them. -/
inductive WfPrim where
  | openTrunc (perm : Nat)
  | fchmod (perm : Nat)
  | fwrite (data : List Nat)
  | fclose
deriving DecidableEq

/-- Errors of the `WriteFile` primitives. -/
inductive WfErr where
  | openE
  | chmodE
  | writeE
  | closeE
deriving DecidableEq

/-- Failure oracle: which primitive of `WriteFile` fails, if any. -/
structure WfOracle where
  openFails : Bool
  chmodFails : Bool
  writeFails : Bool
  closeFails : Bool
deriving DecidableEq

/-- Contents and mode of one file on the target filesystem. -/
structure WfFile where
  mode : Nat
  content : List Nat
deriving DecidableEq

/-- Semantics of each primitive on the (possibly absent) target file:
`O_WRONLY|O_CREATE|O_TRUNC` truncates an existing file keeping its mode, or
creates a fresh one with `perm` masked by the process umask; `Chmod` sets the
mode bits exactly; a write on a freshly truncated descriptor stores the
data. -/
def wfApply (umask : Nat) (st : Option WfFile) (p : WfPrim) : Option WfFile :=
  match p, st with
  | .openTrunc _, some f => some ⟨f.mode, []⟩
  | .openTrunc perm, none => some ⟨andNot32 perm umask, []⟩
  | .fchmod perm, some f => some ⟨perm, f.content⟩
  | .fchmod _, none => none
  | .fwrite data, some f => some ⟨f.mode, data⟩
  | .fwrite _, none => none
  | .fclose, st => st

/-- Translation of `WriteFile` (part_000 lines 98-117): open with truncation,
then chmod, then write, with the close deferred and its error aggregated by
`multierr.Append`.  Returns the successfully performed primitives in order,
and the aggregated error list. -/
def realWriteFile (o : WfOracle) (data : List Nat) (perm : Nat) :
    List WfPrim × List WfErr :=
  if o.openFails then ([], [.openE])
  else
    let closeTrace : List WfPrim := if o.closeFails then [] else [.fclose]
    let closeErr : List WfErr := if o.closeFails then [.closeE] else []
    if o.chmodFails then ([.openTrunc perm] ++ closeTrace, [.chmodE] ++ closeErr)
    else if o.writeFails then
      ([.openTrunc perm, .fchmod perm] ++ closeTrace, [.writeE] ++ closeErr)
    else
      ([.openTrunc perm, .fchmod perm, .fwrite data] ++ closeTrace, closeErr)

/-- Primitive steps of `RunScript` in the order the code can perform them. -/
inductive RsPrim where
  | tempCreate
  | tchmod
  | twrite
  | tclose
  | texec
  | tremove
deriving DecidableEq

/-- Errors of the `RunScript` primitives. -/
inductive RsErr where
  | tempE
  | chmodE
  | writeE
  | closeE
  | runE
  | removeE
deriving DecidableEq

/-- Failure oracle for `RunScript`. -/
structure RsOracle where
  tempFails : Bool
  chmodFails : Bool
  writeFails : Bool
  closeFails : Bool
  runFails : Bool
  removeFails : Bool
deriving DecidableEq

/-- Translation of `RealSystem.RunScript` (part_000 lines 49-80): create the
temp file (on failure, return at once — nothing was created); from then on
the deferred `os.RemoveAll` runs on every exit path and its error is
aggregated with `multierr.Append`.  Chmod failure returns early (before the
write/close pair); the write error is aggregated with the always-attempted
close; only if all of those succeed is the script executed. -/
def realRunScript (o : RsOracle) : List RsPrim × List RsErr :=
  if o.tempFails then ([.tempCreate], [.tempE])
  else
    let removeErr : List RsErr := if o.removeFails then [.removeE] else []
    if o.chmodFails then ([.tempCreate, .tchmod, .tremove], [.chmodE] ++ removeErr)
    else
      let wcErr : List RsErr :=
        (if o.writeFails then [.writeE] else []) ++ (if o.closeFails then [.closeE] else [])
      if o.writeFails || o.closeFails then
        ([.tempCreate, .tchmod, .twrite, .tclose, .tremove], wcErr ++ removeErr)
      else
        ([.tempCreate, .tchmod, .twrite, .tclose, .texec, .tremove],
          (if o.runFails then [.runE] else []) ++ removeErr)

/-- Whether the temporary script file still exists after `RunScript`: only
when it was created and the removal attempt failed. -/
def finalTempExists (o : RsOracle) : Bool :=
  !o.tempFails && o.removeFails

/-- Primitive steps of `WriteSymlink`. -/
inductive WsPrim where
  | renameSymlink (oldname newname : String)
  | wsRemoveAll (name : String)
  | wsSymlink (oldname newname : String)
deriving DecidableEq

/-- Result of the `RemoveAll` call in `WriteSymlink`: success, a
does-not-exist error (tolerated), or any other error. -/
inductive RmRes where
  | rmOk
  | rmNotExist
  | rmFailed
deriving DecidableEq

/-- Translation of `RealSystem.WriteSymlink` (part_000 lines 83-93): on the
live operating-system filesystem, a single atomic rename-based
`renameio.Symlink`; on any other filesystem, `RemoveAll` (tolerating
not-exist) followed by `Symlink`.  Returns the primitives performed and
whether an error aborted the operation. -/
def realWriteSymlink (isOSFS : Bool) (rm : RmRes) (oldname newname : String) :
    List WsPrim × Bool :=
  if isOSFS then ([.renameSymlink oldname newname], false)
  else
    match rm with
    | .rmFailed => ([.wsRemoveAll newname], true)
    | _ => ([.wsRemoveAll newname, .wsSymlink oldname newname], false)

/-!
Entry model (claim C8).  The implementation of `TargetState.Populate` and the
naming-convention decode is not under src/ — only its tests
(src/lib/chezmoi/chezmoi_test.go) are — so the decode is modelled from the
spec and checked against the test expectations.
-/

/-- Strip a concrete marker from the front of a name, if present. -/
def stripChars : List Char → List Char → Option (List Char)
  | [], s => some s
  | _ :: _, [] => none
  | p :: ps, c :: cs => if c == p then stripChars ps cs else none

/-- Marker stripping returning a presence flag and the rest of the name. -/
def stripMarker (marker name : List Char) : Bool × List Char :=
  match stripChars marker name with
  | some rest => (true, rest)
  | none => (false, name)

/-- Modelled from the spec: the naming-convention decode of `TargetState.
Populate` (its implementation is not in src/; only chezmoi_test.go is).  Per
spec section 3, a source name's `private_` marker is stripped first, then the
`dot_` (hidden) marker which turns into a leading `.` in the target name.
Returns the privacy flag and the decoded target name. -/
def decodeName (name : List Char) : Bool × List Char :=
  let (priv, n1) := stripMarker "private_".toList name
  let (dot, n2) := stripMarker "dot_".toList n1
  (priv, if dot then '.' :: n2 else n2)

/-- Modelled from the spec: permission of a decoded source file — the 0666
default masked by the process umask, reduced to exactly 0600 when the
`private_` marker is present (spec sections 3 and 8: "irrespective of umask
for the owner bits"). -/
def filePermOf (umask : Nat) (name : List Char) : Nat :=
  if (decodeName name).1 then 0o600 else andNot32 0o666 umask

/-- Modelled from the spec: permission of a decoded source directory — the
0777 default masked by the umask, reduced to exactly 0700 when private. -/
def dirPermOf (umask : Nat) (name : List Char) : Nat :=
  if (decodeName name).1 then 0o700 else andNot32 0o777 umask

/-- One node of the scanned source tree: a file with raw content, or a
directory of child files. -/
inductive SourceNode where
  | fileS (content : List Nat)
  | dirS (children : List (List Char × List Nat))
deriving DecidableEq

/-- One populated target entry: source name, decoded target name, permission
bits and (for files) content. -/
inductive TargetEntry where
  | fileE (sourceName targetName : List Char) (perm : Nat) (contents : List Nat)
  | dirE (sourceName targetName : List Char) (perm : Nat)
      (children : List (List Char × TargetEntry))

/-- Modelled from the spec: populate one source entry into a target entry,
decoding the naming convention and assigning permissions per type. -/
def populateEntry (umask : Nat) (name : List Char) : SourceNode → TargetEntry
  | .fileS content => .fileE name (decodeName name).2 (filePermOf umask name) content
  | .dirS children =>
    .dirE name (decodeName name).2 (dirPermOf umask name)
      (children.map fun c =>
        ((decodeName c.1).2, .fileE c.1 (decodeName c.1).2 (filePermOf umask c.1) c.2))

/-- Modelled from the spec: populate the top-level mapping of a TargetState
from the scanned source root, keyed by decoded target name. -/
def populateTop (umask : Nat) (entries : List (List Char × SourceNode)) :
    List (List Char × TargetEntry) :=
  entries.map fun e => ((decodeName e.1).2, populateEntry umask e.1 e.2)

/-!
Helper lemmas shared by the claim theorems.
-/

theorem gitDiffStep_reader (dc : List Nat → List Nat → List GitDiffChunk)
    (pfx : String) (st : DiffRunState) (c : WriteCall) :
    (gitDiffStep dc pfx st c).reader = st.reader := by
  unfold gitDiffStep
  split <;> rfl

theorem runGitDiffCalls_reader (dc : List Nat → List Nat → List GitDiffChunk)
    (pfx : String) (calls : List WriteCall) (st : DiffRunState) :
    (runGitDiffCalls dc pfx st calls).reader = st.reader := by
  induction calls generalizing st with
  | nil => rfl
  | cons c cs ih =>
    show (runGitDiffCalls dc pfx (gitDiffStep dc pfx st c) cs).reader = st.reader
    rw [ih, gitDiffStep_reader]

/-- The byte sequence the spec says is hashed for content `c`:
`"blob " + decimal(len(c)) + NUL + c`. -/
def specBlobPreimage (c : List Nat) : List Nat :=
  strBytes "blob " ++ decimalBytes c.length ++ [0] ++ c

theorem computeHash_blob (c : List Nat) :
    computeHash "blob" c = .ofBytes (specBlobPreimage c) := by
  have h : strBytes "blob" ++ strBytes " " = strBytes "blob " := by decide
  simp [computeHash, objectHeader, specBlobPreimage, ← h, List.append_assoc]

/-- To-side content hashes of a patch, in file-patch order. -/
def patchToHashes (p : GitDiffPatch) : List (Option GitHash) :=
  p.filePatches.map fun fp => fp.toFile.map GitDiffFile.hash

/-- From-side content hashes of a patch, in file-patch order. -/
def patchFromHashes (p : GitDiffPatch) : List (Option GitHash) :=
  p.filePatches.map fun fp => fp.fromFile.map GitDiffFile.hash

/-- C1: every sequence of write calls through a GitDiffSystem leaves the
wrapped read-only SystemReader untouched — re-reading any path (stat or
content) or persistent-state key afterwards gives byte-identical answers —
and `Set`/`Delete` discard their arguments and return success (no error, no
patch) on all inputs. -/
theorem gitdiff_reader_frame (dc : List Nat → List Nat → List GitDiffChunk)
    (pfx : String) (st : DiffRunState) (calls : List WriteCall) :
    (runGitDiffCalls dc pfx st calls).reader = st.reader
  ∧ (∀ p, (runGitDiffCalls dc pfx st calls).reader.readFile p = st.reader.readFile p)
  ∧ (∀ p, (runGitDiffCalls dc pfx st calls).reader.statMode p = st.reader.statMode p)
  ∧ (∀ b k, (runGitDiffCalls dc pfx st calls).reader.getState b k = st.reader.getState b k)
  ∧ (∀ b k v, applyWriteCall dc pfx st.reader (.setC b k v) = .ok [])
  ∧ (∀ b k, applyWriteCall dc pfx st.reader (.deleteC b k) = .ok []) := by
  refine ⟨runGitDiffCalls_reader dc pfx calls st, ?_, ?_, ?_, fun b k v => rfl, fun b k => rfl⟩
  · intro p
    rw [runGitDiffCalls_reader]
  · intro p
    rw [runGitDiffCalls_reader]
  · intro b k
    rw [runGitDiffCalls_reader]

/-- C2: every content hash emitted by the diff backend — the to-hash of
WriteFile for new data, its from-hash for the existing content, the RunScript
hash for the script bytes and the WriteSymlink hash for the link-target
string — is the hash of exactly `"blob " + decimal(len(C)) + NUL + C`. -/
theorem gitdiff_blob_hash :
    (∀ dc s pfx fn data perm p fromData,
        ReaderState.readFile s fn = some fromData →
        gitDiffWriteFile dc s pfx fn data perm = .ok p →
        patchToHashes p = [some (.ofBytes (specBlobPreimage data))] ∧
        patchFromHashes p = [some (.ofBytes (specBlobPreimage fromData))])
  ∧ (∀ pfx name data p, gitDiffRunScript pfx name data = .ok p →
        patchToHashes p = [some (.ofBytes (specBlobPreimage data))])
  ∧ (∀ pfx oldname newname p, gitDiffWriteSymlink pfx oldname newname = .ok p →
        patchToHashes p = [some (.ofBytes (specBlobPreimage (strBytes oldname)))]) := by
  refine ⟨?_, ?_, ?_⟩
  · intro dc s pfx fn data perm p fromData hread hwf
    rcases hg : getFileMode s fn with e | pair
    · rw [gitDiffWriteFile, hg] at hwf
      exact Except.noConfusion hwf
    · obtain ⟨fromFm, statM⟩ := pair
      rcases hm : newFromOSFileMode perm with e | toFm
      · have heq : gitDiffWriteFile dc s pfx fn data perm = .error e := by
          unfold gitDiffWriteFile
          rw [hg, hread, hm]
        rw [heq] at hwf
        exact Except.noConfusion hwf
      · have heq : gitDiffWriteFile dc s pfx fn data perm =
            .ok ⟨[⟨isBinary fromData || isBinary data,
                   some ⟨computeHash "blob" fromData, fromFm, trimPfx pfx fn⟩,
                   some ⟨computeHash "blob" data, toFm, trimPfx pfx fn⟩,
                   if isBinary fromData || isBinary data then []
                   else dc fromData data⟩], ""⟩ := by
          unfold gitDiffWriteFile
          rw [hg, hread, hm]
        rw [heq] at hwf
        injection hwf with h
        subst h
        exact ⟨by simp [patchToHashes, computeHash_blob],
               by simp [patchFromHashes, computeHash_blob]⟩
  · intro pfx name data p hrs
    injection hrs with h
    subst h
    simp [patchToHashes, computeHash_blob]
  · intro pfx oldname newname p hws
    injection hws with h
    subst h
    simp [patchToHashes, computeHash_blob]

/-- Wrapped reader used by concrete witnesses: one ordinary text file. -/
def wReader : ReaderState := ⟨[("/home/user/.bashrc", ⟨0o644, strBytes "old"⟩)], []⟩

/-- Patch of the witness WriteFile call. -/
def wPatch : GitDiffPatch :=
  match gitDiffWriteFile (fun _ _ => []) wReader "/home/user" "/home/user/.bashrc"
      (strBytes "new") 0o644 with
  | .ok p => p
  | .error _ => ⟨[], ""⟩

/-- Patch of the witness RunScript call. -/
def wScriptPatch : GitDiffPatch :=
  match gitDiffRunScript "/home/user" "/home/user/run.sh" (strBytes "echo") with
  | .ok p => p
  | .error _ => ⟨[], ""⟩

/-- Patch of the witness WriteSymlink call. -/
def wSymlinkPatch : GitDiffPatch :=
  match gitDiffWriteSymlink "/home/user" "target" "/home/user/link" with
  | .ok p => p
  | .error _ => ⟨[], ""⟩

/-- Witness for C2 at concrete inputs: all four hash sites produce the blob
preimage hash of the respective content. -/
theorem gitdiff_blob_hash_witness :
    (wReader.readFile "/home/user/.bashrc" = some (strBytes "old"))
  ∧ patchToHashes wPatch = [some (.ofBytes (specBlobPreimage (strBytes "new")))]
  ∧ patchFromHashes wPatch = [some (.ofBytes (specBlobPreimage (strBytes "old")))]
  ∧ patchToHashes wScriptPatch = [some (.ofBytes (specBlobPreimage (strBytes "echo")))]
  ∧ patchToHashes wSymlinkPatch = [some (.ofBytes (specBlobPreimage (strBytes "target")))] := by
  have h1 := gitdiff_blob_hash.1 (fun _ _ => []) wReader "/home/user" "/home/user/.bashrc"
    (strBytes "new") 0o644 wPatch (strBytes "old") rfl rfl
  have h2 := gitdiff_blob_hash.2.1 "/home/user" "/home/user/run.sh" (strBytes "echo")
    wScriptPatch rfl
  have h3 := gitdiff_blob_hash.2.2 "/home/user" "target" "/home/user/link" wSymlinkPatch rfl
  exact ⟨rfl, h1.1, h1.2, h2, h3⟩

/-- C3: WriteFile on the direct backend performs, in the crash-free case,
exactly open-with-truncation, chmod to `perm`, write of `data`, close, in
that order, with no error; the final file state is exactly mode `perm` with
content `data`; and the intermediate file states after the open are exactly
truncated-with-old-mode, truncated-with-new-mode, new-content-with-new-mode —
so the file never holds the new content under a mode other than `perm`, and
old content is never present after truncation. -/
theorem realsystem_writefile_order (o : WfOracle) (umask m0 : Nat)
    (c0 data : List Nat) (perm : Nat)
    (h : o = ⟨false, false, false, false⟩) :
    (realWriteFile o data perm).1 = [.openTrunc perm, .fchmod perm, .fwrite data, .fclose]
  ∧ (realWriteFile o data perm).2 = []
  ∧ List.foldl (wfApply umask) (some ⟨m0, c0⟩) (realWriteFile o data perm).1 = some ⟨perm, data⟩
  ∧ (List.scanl (wfApply umask) (some ⟨m0, c0⟩) (realWriteFile o data perm).1).drop 1 =
      [some ⟨m0, []⟩, some ⟨perm, []⟩, some ⟨perm, data⟩, some ⟨perm, data⟩] := by
  subst h
  refine ⟨rfl, rfl, rfl, ?_⟩
  simp [realWriteFile, List.scanl, wfApply]

/-- Witness for C3: the spec scenario — `/a` had mode 0777 and content
`"old"`; after write-file with `"new"` and 0644 the mode is exactly 0644 and
the content exactly `"new"`, through exactly the four ordered steps. -/
theorem realsystem_writefile_order_witness :
    ((realWriteFile ⟨false, false, false, false⟩ (strBytes "new") 0o644).1 =
      [.openTrunc 0o644, .fchmod 0o644, .fwrite (strBytes "new"), .fclose])
  ∧ List.foldl (wfApply 0) (some ⟨0o777, strBytes "old"⟩)
      (realWriteFile ⟨false, false, false, false⟩ (strBytes "new") 0o644).1 =
      some ⟨0o644, strBytes "new"⟩ := by
  have h := realsystem_writefile_order ⟨false, false, false, false⟩ 0 0o777
    (strBytes "old") (strBytes "new") 0o644 rfl
  exact ⟨h.1, h.2.2.1⟩

/-- C4: binary classification — empty content is never binary; content whose
sniffed content type has a `"text/"` prefix is never binary; content
beginning with a NUL byte is binary; and a WriteFile patch whose from- or
to-content is binary is marked binary and carries no content chunks (the
line-diff engine is not consulted). -/
theorem gitdiff_isBinary_classification :
    (isBinary [] = false)
  ∧ (∀ data, textPfx (detectContentType data) = true → isBinary data = false)
  ∧ (∀ ds, isBinary (0 :: ds) = true)
  ∧ (∀ dc s pfx fn data perm p fromData,
        ReaderState.readFile s fn = some fromData →
        gitDiffWriteFile dc s pfx fn data perm = .ok p →
        (isBinary fromData || isBinary data) = true →
        p.filePatches.map GitDiffFilePatch.isBinary = [true] ∧
        p.filePatches.map GitDiffFilePatch.chunks = [[]]) := by
  refine ⟨rfl, ?_, isBinary_nul, ?_⟩
  · intro data h
    unfold isBinary
    rw [h]
    simp
  · intro dc s pfx fn data perm p fromData hread hwf hbin
    rcases hg : getFileMode s fn with e | pair
    · rw [gitDiffWriteFile, hg] at hwf
      exact Except.noConfusion hwf
    · obtain ⟨fromFm, statM⟩ := pair
      rcases hm : newFromOSFileMode perm with e | toFm
      · have heq : gitDiffWriteFile dc s pfx fn data perm = .error e := by
          unfold gitDiffWriteFile
          rw [hg, hread, hm]
        rw [heq] at hwf
        exact Except.noConfusion hwf
      · have heq : gitDiffWriteFile dc s pfx fn data perm =
            .ok ⟨[⟨isBinary fromData || isBinary data,
                   some ⟨computeHash "blob" fromData, fromFm, trimPfx pfx fn⟩,
                   some ⟨computeHash "blob" data, toFm, trimPfx pfx fn⟩,
                   if isBinary fromData || isBinary data then []
                   else dc fromData data⟩], ""⟩ := by
          unfold gitDiffWriteFile
          rw [hg, hread, hm]
        rw [heq] at hwf
        injection hwf with h
        subst h
        exact ⟨by simp [hbin], by simp [hbin]⟩

/-- Wrapped reader holding a binary file (leading NUL), for the C4 witness. -/
def wBinReader : ReaderState := ⟨[("/b", ⟨0o644, [0, 1, 2]⟩)], []⟩

/-- Patch of the witness binary WriteFile call. -/
def wBinPatch : GitDiffPatch :=
  match gitDiffWriteFile (fun _ _ => []) wBinReader "" "/b" [0, 9] 0o644 with
  | .ok p => p
  | .error _ => ⟨[], ""⟩

/-- Witness for C4 at concrete inputs: `"hello"` sniffs textual and is not
binary, and the binary write-file patch is marked binary with no chunks. -/
theorem gitdiff_isBinary_classification_witness :
    (textPfx (detectContentType (strBytes "hello")) = true ∧ isBinary (strBytes "hello") = false)
  ∧ ((isBinary [0, 1, 2] || isBinary [0, 9]) = true
     ∧ wBinPatch.filePatches.map GitDiffFilePatch.isBinary = [true]
     ∧ wBinPatch.filePatches.map GitDiffFilePatch.chunks = [[]]) := by
  have h2 := gitdiff_isBinary_classification.2.1 (strBytes "hello") (by decide)
  have h4 := gitdiff_isBinary_classification.2.2.2 (fun _ _ => []) wBinReader "" "/b"
    [0, 9] 0o644 wBinPatch [0, 1, 2] rfl rfl (by decide)
  exact ⟨⟨by decide, h2⟩, ⟨by decide, h4.1, h4.2⟩⟩

/-- C5 (amended): when the wrapped reader's stat succeeds AND both the
stat-reported mode and that mode with its permission bits replaced by `mode`
have git file-mode equivalents, Chmod encodes exactly one file patch whose
from and to descriptors share the prefix-trimmed path and both carry the
zero sentinel hash, the to-mode being the translation of the stat-reported
mode with its permission bits replaced by `mode`; when the stat-reported
mode has no git equivalent (socket, FIFO, device, irregular, temporary bit),
Chmod returns the translation error and encodes nothing; and the result
depends only on the stat-reported mode, never on any file content. -/
theorem gitdiff_chmod_patch :
    (∀ s pfx name mode m fromFm toFm,
        ReaderState.statMode s name = some m →
        newFromOSFileMode m = .ok fromFm →
        newFromOSFileMode (andNot32 m osModePerm ||| mode) = .ok toFm →
        gitDiffChmod s pfx name mode =
          .ok ⟨[⟨false, some ⟨.zero, fromFm, trimPfx pfx name⟩,
                 some ⟨.zero, toFm, trimPfx pfx name⟩, []⟩], ""⟩)
  ∧ (∀ s pfx name mode m e,
        ReaderState.statMode s name = some m →
        newFromOSFileMode m = .error e →
        gitDiffChmod s pfx name mode = .error e)
  ∧ (∀ s t pfx name mode, ReaderState.statMode s name = ReaderState.statMode t name →
        gitDiffChmod s pfx name mode = gitDiffChmod t pfx name mode) := by
  refine ⟨?_, ?_, ?_⟩
  · intro s pfx name mode m fromFm toFm hstat hfrom hto
    have hgf : getFileMode s name = .ok (fromFm, m) := by
      unfold getFileMode
      simp only [hstat, hfrom]
    unfold gitDiffChmod
    simp only [hgf, hto]
  · intro s pfx name mode m e hstat herr
    have hgf : getFileMode s name = .error e := by
      unfold getFileMode
      simp only [hstat, herr]
    unfold gitDiffChmod
    simp only [hgf]
  · intro s t pfx name mode h
    unfold gitDiffChmod getFileMode
    rw [h]

/-- Reader whose entry is a Unix socket: stat succeeds but the mode has no
git equivalent.  Used by the C5 counterexample. -/
def wSockReader : ReaderState := ⟨[("/s", ⟨osModeSocket ||| 0o644, []⟩)], []⟩

/-- Counterexample to C5 as frozen: the wrapped reader's Stat succeeds on
`/s` (a socket), yet Chmod encodes no file patch at all — it returns the
mode-translation error instead. -/
theorem gitdiff_chmod_patch_counterexample :
    (wSockReader.statMode "/s" = some (osModeSocket ||| 0o644))
  ∧ gitDiffChmod wSockReader "" "/s" 0o644 = .error .modeE :=
  ⟨rfl, rfl⟩

/-- Wrapped reader with an executable file, for the C5 witness. -/
def wChmodReader : ReaderState := ⟨[("/x", ⟨0o755, strBytes "#!/bin/sh"⟩)], []⟩

/-- Witness for C5: chmod of a 0755 executable to 0644 encodes exactly one
executable-to-regular patch, both sides with the zero hash. -/
theorem gitdiff_chmod_patch_witness :
    gitDiffChmod wChmodReader "" "/x" 0o644 =
      .ok ⟨[⟨false, some ⟨.zero, gitModeExecutable, trimPfx "" "/x"⟩,
             some ⟨.zero, gitModeRegular, trimPfx "" "/x"⟩, []⟩], ""⟩ :=
  gitdiff_chmod_patch.1 wChmodReader "" "/x" 0o644 0o755 gitModeExecutable gitModeRegular
    rfl rfl rfl

/-- C6: once the temporary script file has been created, RunScript reaches
the removal step on every exit path — chmod failure, write/close failure,
subprocess failure or success — the file is gone whenever removal succeeds,
and when a primary step and the removal both fail, the aggregated error
contains both, never only the first. -/
theorem realsystem_runscript_cleanup :
    ∀ tf ch wr cl ru rm : Bool, tf = false →
      (RsPrim.tremove ∈ (realRunScript ⟨tf, ch, wr, cl, ru, rm⟩).1)
    ∧ (rm = false → finalTempExists ⟨tf, ch, wr, cl, ru, rm⟩ = false)
    ∧ (rm = true → RsErr.removeE ∈ (realRunScript ⟨tf, ch, wr, cl, ru, rm⟩).2)
    ∧ (ch = true → RsErr.chmodE ∈ (realRunScript ⟨tf, ch, wr, cl, ru, rm⟩).2)
    ∧ (ch = false → wr = true → RsErr.writeE ∈ (realRunScript ⟨tf, ch, wr, cl, ru, rm⟩).2)
    ∧ (ch = false → wr = false → cl = true →
        RsErr.closeE ∈ (realRunScript ⟨tf, ch, wr, cl, ru, rm⟩).2)
    ∧ (ch = false → wr = false → cl = false → ru = true →
        RsErr.runE ∈ (realRunScript ⟨tf, ch, wr, cl, ru, rm⟩).2) := by
  intro tf ch wr cl ru rm htf
  subst htf
  cases ch <;> cases wr <;> cases cl <;> cases ru <;> cases rm <;>
    simp [realRunScript, finalTempExists]

/-- Witness for C6: the script fails and the removal fails too — the removal
was still attempted and both errors are reported together. -/
theorem realsystem_runscript_cleanup_witness :
    (RsPrim.tremove ∈ (realRunScript ⟨false, false, false, false, true, true⟩).1)
  ∧ (RsErr.runE ∈ (realRunScript ⟨false, false, false, false, true, true⟩).2)
  ∧ (RsErr.removeE ∈ (realRunScript ⟨false, false, false, false, true, true⟩).2) := by
  have h := realsystem_runscript_cleanup false false false false true true rfl
  exact ⟨h.1, h.2.2.2.2.2.2 rfl rfl rfl rfl, h.2.2.1 rfl⟩

/-- C7: WriteSymlink uses the atomic rename-based replacement exactly when
the backend's filesystem is the live operating-system filesystem; on any
other filesystem it removes the target first and then creates the symlink. -/
theorem realsystem_writesymlink_atomic :
    ∀ (osfs : Bool) (rm : RmRes) (oldname newname : String),
      ((WsPrim.renameSymlink oldname newname) ∈
          (realWriteSymlink osfs rm oldname newname).1 ↔ osfs = true)
    ∧ (osfs = true →
        realWriteSymlink osfs rm oldname newname = ([.renameSymlink oldname newname], false))
    ∧ (osfs = false → rm ≠ .rmFailed →
        realWriteSymlink osfs rm oldname newname =
          ([.wsRemoveAll newname, .wsSymlink oldname newname], false))
    ∧ (osfs = false →
        (realWriteSymlink osfs rm oldname newname).1.head? = some (.wsRemoveAll newname)) := by
  intro osfs rm oldname newname
  cases osfs <;> cases rm <;> simp [realWriteSymlink]

/-- Witness for C7: on the live OS filesystem a single atomic rename-based
replacement; on another filesystem remove-then-create. -/
theorem realsystem_writesymlink_atomic_witness :
    (realWriteSymlink true RmRes.rmOk "t" "l" = ([.renameSymlink "t" "l"], false))
  ∧ (realWriteSymlink false RmRes.rmOk "t" "l" =
      ([.wsRemoveAll "l", .wsSymlink "t" "l"], false)) := by
  have h1 := realsystem_writesymlink_atomic true RmRes.rmOk "t" "l"
  have h2 := realsystem_writesymlink_atomic false RmRes.rmOk "t" "l"
  exact ⟨h1.2.1 rfl, h2.2.2.1 rfl (by decide)⟩

theorem stripChars_append (p s : List Char) : stripChars p (p ++ s) = some s := by
  induction p with
  | nil => rfl
  | cons c cs ih => simp [stripChars, ih]

/-- C8: a source entry carrying the `private_` marker populates to an entry
whose target name has the marker removed and whose permission is exactly
0600 for a file and 0700 for a directory, for every umask; in particular
`private_foo` with content `"bar"` yields target entry `foo`, mode 0600,
content `"bar"` (spec-modelled: the Populate implementation is not in
src/). -/
theorem targetstate_private_marker :
    (∀ umask rest content,
        populateEntry umask ("private_".toList ++ rest) (.fileS content) =
          .fileE ("private_".toList ++ rest)
            (if (stripMarker "dot_".toList rest).1 then '.' :: (stripMarker "dot_".toList rest).2
             else (stripMarker "dot_".toList rest).2)
            0o600 content)
  ∧ (∀ umask rest children,
        populateEntry umask ("private_".toList ++ rest) (.dirS children) =
          .dirE ("private_".toList ++ rest)
            (if (stripMarker "dot_".toList rest).1 then '.' :: (stripMarker "dot_".toList rest).2
             else (stripMarker "dot_".toList rest).2)
            0o700
            (children.map fun c =>
              ((decodeName c.1).2, .fileE c.1 (decodeName c.1).2 (filePermOf umask c.1) c.2)))
  ∧ (∀ umask,
        populateTop umask [("private_foo".toList, .fileS (strBytes "bar"))] =
          [("foo".toList, .fileE "private_foo".toList "foo".toList 0o600 (strBytes "bar"))]) := by
  have hp : ∀ rest, stripMarker "private_".toList ("private_".toList ++ rest) = (true, rest) := by
    intro rest
    unfold stripMarker
    rw [stripChars_append]
  have hdn : ∀ rest, decodeName ("private_".toList ++ rest) =
      (true, if (stripMarker "dot_".toList rest).1 then '.' :: (stripMarker "dot_".toList rest).2
             else (stripMarker "dot_".toList rest).2) := by
    intro rest
    unfold decodeName
    rw [hp rest]
  refine ⟨?_, ?_, ?_⟩
  · intro umask rest content
    have hperm : filePermOf umask ("private_".toList ++ rest) = 0o600 := by
      unfold filePermOf
      rw [hdn rest]
      simp
    show TargetEntry.fileE ("private_".toList ++ rest) (decodeName ("private_".toList ++ rest)).2
        (filePermOf umask ("private_".toList ++ rest)) content = _
    rw [hdn rest, hperm]
  · intro umask rest children
    have hperm : dirPermOf umask ("private_".toList ++ rest) = 0o700 := by
      unfold dirPermOf
      rw [hdn rest]
      simp
    show TargetEntry.dirE ("private_".toList ++ rest) (decodeName ("private_".toList ++ rest)).2
        (dirPermOf umask ("private_".toList ++ rest))
        (children.map fun c =>
          ((decodeName c.1).2, .fileE c.1 (decodeName c.1).2 (filePermOf umask c.1) c.2)) = _
    rw [hdn rest, hperm]
  · intro umask
    have hd : decodeName "private_foo".toList = (true, "foo".toList) := by decide
    have hperm : filePermOf umask "private_foo".toList = 0o600 := by
      unfold filePermOf
      rw [hd]
      simp
    show [((decodeName "private_foo".toList).2,
           populateEntry umask "private_foo".toList (.fileS (strBytes "bar")))] = _
    unfold populateEntry
    rw [hd, hperm]

/-- C10: GitDiffSystem.RunScript never consults the wrapped state and never
executes the script: for every input it returns exactly one to-only patch
with executable mode, the prefix-trimmed name, the blob hash of the script,
the binary mark exactly when `isBinary data`, and a single add chunk with the
full script content exactly when the script is not binary; its result is the
same for all wrapped reader states, and stepping it leaves the reader
unchanged. -/
theorem gitdiff_runscript_patch :
    (∀ pfx name data,
        gitDiffRunScript pfx name data =
          .ok ⟨[⟨isBinary data, none,
                 some ⟨computeHash "blob" data, gitModeExecutable, trimPfx pfx name⟩,
                 if isBinary data then [] else [⟨data, .add⟩]⟩], ""⟩)
  ∧ (∀ dc pfx s t name data,
        applyWriteCall dc pfx s (.runScriptC name data) =
          applyWriteCall dc pfx t (.runScriptC name data))
  ∧ (∀ dc pfx st name data,
        (gitDiffStep dc pfx st (.runScriptC name data)).reader = st.reader) :=
  ⟨fun _ _ _ => rfl, fun _ _ _ _ _ _ => rfl,
   fun dc pfx st _ _ => gitDiffStep_reader dc pfx st _⟩
